import Mathlib

/-
Verification of the parameter-estimation driver in `param_est.py`
(pyParticleEst): shallow embedding of `set_traj_params`, the
`ParamEstimation` aggregator methods (`eval_logp_y`, `eval_logp_xnext`,
`eval_logp_x0` and their gradient counterparts, `eval_prob`,
`eval_prob_grad`), the optimizer closures of `maximize` and the outer
simulate/optimize loop itself.

Modelling conventions:
- Parameter vectors and per-instance gradients are `List ℚ`; a gradient
  list of length d stands for a numpy column array of shape (d, 1) and
  `ravel` on such a column is the identity on the list.
- Python exceptions are an explicit `PyErr` error channel (`Except`):
  `ZeroDivisionError` from float/int division by zero, `IndexError` from
  `traj.y[i]` when the observation list is shorter than the trajectory,
  `ValueError` from a non-broadcastable in-place numpy `+=`, `TypeError`
  from `len(None)`, `AttributeError` from `None.shape`.
- numpy ARRAY division by the int 0 does not raise: it silently yields
  NaN (0/0) or ±Inf (±x/0) entries; `NpF` adjoins those values to ℚ.
- The particle filter, the smoother (`simulate`'s externals) and
  `scipy.optimize.minimize` are external collaborators, modelled as an
  abstract `Collab` record; the optimizer is its returned candidate
  `res.x` plus the list of points at which it queried the `fval`/`fgrad`
  closures (each query rebinds the ensemble's parameters as a side
  effect, which is the only state effect those closures have).
-/

namespace ParamEst

/-- Python exception kinds that the embedded code can raise. -/
inductive PyErr where
  | zeroDivision
  | indexError
  | valueError
  | typeError
  | attributeError
deriving DecidableEq, Repr

/-- A numpy floating value: a finite rational, NaN, +Inf or -Inf.
Only array division by zero introduces the non-finite values here. -/
inductive NpF where
  | fin : ℚ → NpF
  | nan : NpF
  | pinf : NpF
  | ninf : NpF
deriving DecidableEq, Repr

/-- numpy scalar addition on `NpF` (IEEE rules: NaN absorbs, Inf - Inf = NaN). -/
def NpF.add : NpF → NpF → NpF
  | NpF.fin a, NpF.fin b => NpF.fin (a + b)
  | NpF.nan, _ => NpF.nan
  | _, NpF.nan => NpF.nan
  | NpF.pinf, NpF.ninf => NpF.nan
  | NpF.ninf, NpF.pinf => NpF.nan
  | NpF.pinf, _ => NpF.pinf
  | _, NpF.pinf => NpF.pinf
  | NpF.ninf, _ => NpF.ninf
  | _, NpF.ninf => NpF.ninf

/-- One model instance at one time step: the parameter vector currently
bound to it (`set_params`) plus its model-specific local state. -/
structure PInstance (σ : Type) where
  params : List ℚ
  state : σ
deriving Repr

/-- The model contract (`ParamEstInterface`): the per-instance log-density
terms and their gradients, as functions of the bound parameter vector and
the instance's local state. `eval_logp_xnext` is a method of the instance
at time t receiving the instance at time t+1, so it sees both instances'
bound parameters and states. The initial-state members are part of the
interface but are never invoked by the aggregator. -/
structure Model (σ ο : Type) where
  evalLogpX0 : List ℚ → σ → ℚ
  evalGradLogpX0 : List ℚ → σ → List ℚ
  evalLogpY : List ℚ → σ → ο → ℚ
  evalGradLogpY : List ℚ → σ → ο → List ℚ
  evalLogpXnext : List ℚ → σ → List ℚ → σ → ℚ
  evalGradLogpXnext : List ℚ → σ → List ℚ → σ → List ℚ

/-- One smoothed trajectory: the sequence of model instances (`traj`) and
the aligned observation sequence (`y`), where `none` is a missing
measurement (Python `None`). -/
structure STraj (σ ο : Type) where
  traj : List (PInstance σ)
  y : List (Option ο)
deriving Repr

/-- The `ParamEstimation` driver state: `self.params` (None before
`set_params`) and `self.straj` (None before `simulate`). The filtered
trajectory `self.pt` and the driver's own `u`/`y` arrays feed only the
external filtering/smoothing collaborators and are absorbed into the
abstract `Collab.sim` below. -/
structure PEState (σ ο : Type) where
  params : Option (List ℚ)
  straj : Option (List (STraj σ ο))
deriving Repr

/-- `instance.set_params(p)`: rebind one model instance. -/
def setInstParams (p : List ℚ) (inst : PInstance σ) : PInstance σ :=
  { inst with params := p }

/-- `set_traj_params(straj, params)`: rebind every instance at every time
step of every trajectory. -/
def setTrajParams (straj : List (STraj σ ο)) (p : List ℚ) : List (STraj σ ο) :=
  straj.map (fun t => { t with traj := t.traj.map (setInstParams p) })

/-- `ParamEstimation.set_params`: store a copy of `params` in
`self.params` and, when `self.straj` is not None, rebind the whole
ensemble via `set_traj_params`. -/
def setParams (st : PEState σ ο) (p : List ℚ) : PEState σ ο :=
  { st with
    params := some p
    straj := st.straj.map (fun s => setTrajParams s p) }

/-- The inner loop of `eval_logp_y` for one trajectory: for each index i
of `traj.traj`, read `traj.y[i]` (IndexError when `y` is exhausted first)
and, when the observation is present, add the instance's measurement
log-density. -/
def sumLogpY (m : Model σ ο) : List (PInstance σ) → List (Option ο) → Except PyErr ℚ
  | [], _ => Except.ok 0
  | _ :: _, [] => Except.error PyErr.indexError
  | inst :: insts, oy :: ys => do
    let tail ← sumLogpY m insts ys
    match oy with
    | none => pure tail
    | some ob => pure (m.evalLogpY inst.params inst.state ob + tail)

/-- The accumulation over all trajectories in `eval_logp_y`. -/
def accLogpY (m : Model σ ο) (trajs : List (STraj σ ο)) : Except PyErr ℚ :=
  trajs.foldl
    (fun acc t => do
      let a ← acc
      let v ← sumLogpY m t.traj t.y
      pure (a + v))
    (Except.ok 0)

/-- `ParamEstimation.eval_logp_y`: `len(None)` is a TypeError; otherwise
sum the per-instance measurement terms over present observations and
divide by M (`float / 0` raises ZeroDivisionError). -/
def evalLogpY (m : Model σ ο) (st : PEState σ ο) : Except PyErr ℚ :=
  match st.straj with
  | none => Except.error PyErr.typeError
  | some trajs => do
    let total ← accLogpY m trajs
    if trajs.length = 0 then Except.error PyErr.zeroDivision
    else pure (total / (trajs.length : ℚ))

/-- The inner loop of `eval_logp_xnext` for one trajectory: sum the
transition terms over consecutive instance pairs (t, t+1). -/
def sumLogpXnext (m : Model σ ο) : List (PInstance σ) → ℚ
  | [] => 0
  | [_] => 0
  | a :: b :: rest =>
      m.evalLogpXnext a.params a.state b.params b.state + sumLogpXnext m (b :: rest)

/-- `ParamEstimation.eval_logp_xnext`: transition-term sum over the whole
ensemble divided by M. -/
def evalLogpXnext (m : Model σ ο) (st : PEState σ ο) : Except PyErr ℚ :=
  match st.straj with
  | none => Except.error PyErr.typeError
  | some trajs =>
    let total := trajs.foldl (fun a t => a + sumLogpXnext m t.traj) 0
    if trajs.length = 0 then Except.error PyErr.zeroDivision
    else Except.ok (total / (trajs.length : ℚ))

/-- `ParamEstimation.eval_logp_x0`: the accumulation loop is commented
out in the source, so the method returns `0.0 / M` unconditionally. -/
def evalLogpX0 (m : Model σ ο) (st : PEState σ ο) : Except PyErr ℚ :=
  match st.straj with
  | none => Except.error PyErr.typeError
  | some trajs =>
    if trajs.length = 0 then Except.error PyErr.zeroDivision
    else Except.ok (0 / (trajs.length : ℚ))

/-- numpy in-place `acc += g` on column vectors of shapes (n,1) += (m,1):
elementwise when m = n, broadcast when m = 1, ValueError otherwise (the
output shape may not change in an in-place operation). -/
def npIAdd (acc g : List ℚ) : Except PyErr (List ℚ) :=
  if g.length = acc.length then Except.ok (List.zipWith (fun a b => a + b) acc g)
  else
    match g with
    | [x] => Except.ok (acc.map (fun a => a + x))
    | _ => Except.error PyErr.valueError

/-- numpy array division by the int M: silently NaN/±Inf entries when
M = 0, finite entries otherwise. -/
def npDivNat (v : List ℚ) (M : ℕ) : List NpF :=
  if M = 0 then
    v.map (fun q => if q = 0 then NpF.nan else if 0 < q then NpF.pinf else NpF.ninf)
  else v.map (fun q => NpF.fin (q / (M : ℚ)))

/-- The inner loop of `eval_grad_logp_y` for one trajectory, threading
the numpy accumulator through the in-place additions. -/
def sumGradLogpY (m : Model σ ο) :
    List (PInstance σ) → List (Option ο) → List ℚ → Except PyErr (List ℚ)
  | [], _, acc => Except.ok acc
  | _ :: _, [], _ => Except.error PyErr.indexError
  | inst :: insts, oy :: ys, acc => do
    let acc' ←
      match oy with
      | none => Except.ok acc
      | some ob => npIAdd acc (m.evalGradLogpY inst.params inst.state ob)
    sumGradLogpY m insts ys acc'

/-- `ParamEstimation.eval_grad_logp_y`: the accumulator is
`numpy.zeros((len(self.params.shape), 1))`, i.e. shape (1,1) for a 1-D
parameter array (`None.shape` is an AttributeError when `self.params` is
None); then the per-trajectory loops, then numpy division by M. -/
def evalGradLogpY (m : Model σ ο) (st : PEState σ ο) : Except PyErr (List NpF) :=
  match st.params with
  | none => Except.error PyErr.attributeError
  | some _ =>
    match st.straj with
    | none => Except.error PyErr.typeError
    | some trajs => do
      let acc ← trajs.foldl
        (fun acc t => do
          let a ← acc
          sumGradLogpY m t.traj t.y a)
        (Except.ok [0])
      pure (npDivNat acc trajs.length)

/-- The inner loop of `eval_grad_logp_xnext` for one trajectory. -/
def sumGradLogpXnext (m : Model σ ο) :
    List (PInstance σ) → List ℚ → Except PyErr (List ℚ)
  | [], acc => Except.ok acc
  | [_], acc => Except.ok acc
  | a :: b :: rest, acc => do
    let acc' ← npIAdd acc (m.evalGradLogpXnext a.params a.state b.params b.state)
    sumGradLogpXnext m (b :: rest) acc'

/-- `ParamEstimation.eval_grad_logp_xnext`: same accumulator shape as
`eval_grad_logp_y`, summed over consecutive pairs, divided by M. -/
def evalGradLogpXnext (m : Model σ ο) (st : PEState σ ο) : Except PyErr (List NpF) :=
  match st.params with
  | none => Except.error PyErr.attributeError
  | some _ =>
    match st.straj with
    | none => Except.error PyErr.typeError
    | some trajs => do
      let acc ← trajs.foldl
        (fun acc t => do
          let a ← acc
          sumGradLogpXnext m t.traj a)
        (Except.ok [0])
      pure (npDivNat acc trajs.length)

/-- `ParamEstimation.eval_grad_logp_x0`: the accumulation loop is
commented out, so the method returns the untouched
`numpy.zeros((len(self.params.shape), 1)) / M` — the single-entry zero
column divided by M, independent of the model and the trajectories. -/
def evalGradLogpX0 (m : Model σ ο) (st : PEState σ ο) : Except PyErr (List NpF) :=
  match st.params with
  | none => Except.error PyErr.attributeError
  | some _ =>
    match st.straj with
    | none => Except.error PyErr.typeError
    | some trajs => Except.ok (npDivNat [0] trajs.length)

/-- `ParamEstimation.eval_prob`: evaluate the three averaged terms
(measurement first, as in the source) and return
`log_px0 + log_pxnext + log_py`. -/
def evalProb (m : Model σ ο) (st : PEState σ ο) : Except PyErr ℚ := do
  let log_py ← evalLogpY m st
  let log_px0 ← evalLogpX0 m st
  let log_pxnext ← evalLogpXnext m st
  pure (log_px0 + log_pxnext + log_py)

/-- numpy (non-in-place) array addition with broadcasting between column
vectors: elementwise on equal lengths, broadcast when either side has one
entry, ValueError otherwise. -/
def npAdd (a b : List NpF) : Except PyErr (List NpF) :=
  if a.length = b.length then Except.ok (List.zipWith NpF.add a b)
  else
    match a, b with
    | [x], _ => Except.ok (b.map (fun v => NpF.add x v))
    | _, [x] => Except.ok (a.map (fun v => NpF.add v x))
    | _, _ => Except.error PyErr.valueError

/-- `ParamEstimation.eval_prob_grad`: the elementwise sum of the three
averaged gradient terms. -/
def evalProbGrad (m : Model σ ο) (st : PEState σ ο) : Except PyErr (List NpF) := do
  let gy ← evalGradLogpY m st
  let gx0 ← evalGradLogpX0 m st
  let gxn ← evalGradLogpXnext m st
  let s1 ← npAdd gy gx0
  npAdd s1 gxn

/-- The `fgrad` closure inside `maximize`: `set_traj_params(self.straj,
params)` (a TypeError when `self.straj` is None), then
`(d_log_py + d_log_px0 + d_log_pxnext).ravel()` — with NO negation in the
source, unlike `fval`. `ravel` of a column (n,1) is the flat n-vector,
the identity in this list model. Returns the mutated state together with
the value. -/
def fgrad (m : Model σ ο) (st : PEState σ ο) (p : List ℚ) :
    Except PyErr (PEState σ ο × List NpF) :=
  match st.straj with
  | none => Except.error PyErr.typeError
  | some trajs => do
    let st' : PEState σ ο := { st with straj := some (setTrajParams trajs p) }
    let gy ← evalGradLogpY m st'
    let gx0 ← evalGradLogpX0 m st'
    let gxn ← evalGradLogpXnext m st'
    let s1 ← npAdd gy gx0
    let s2 ← npAdd s1 gxn
    pure (st', s2)

/-- The `fval` closure inside `maximize`: rebind, then return
`-1.0 * (log_py + log_px0 + log_pxnext)`. -/
def fval (m : Model σ ο) (st : PEState σ ο) (p : List ℚ) :
    Except PyErr (PEState σ ο × ℚ) :=
  match st.straj with
  | none => Except.error PyErr.typeError
  | some trajs => do
    let st' : PEState σ ο := { st with straj := some (setTrajParams trajs p) }
    let log_py ← evalLogpY m st'
    let log_px0 ← evalLogpX0 m st'
    let log_pxnext ← evalLogpXnext m st'
    pure (st', -1 * (log_py + log_px0 + log_pxnext))

/-- The external collaborators of the driver, abstractly: `sim` is the
composite effect of `create_initial_estimate`, the particle filter and
the smoother inside `simulate` (it produces the new ensemble from the
current driver state); `opt` is `scipy.optimize.minimize`, returning the
candidate `res.x` together with the list of parameter points at which it
invoked the objective/gradient closures (in order). -/
structure Collab (σ ο : Type) where
  sim : PEState σ ο → List (STraj σ ο)
  opt : PEState σ ο → List ℚ → List ℚ × List (List ℚ)

/-- `ParamEstimation.simulate`: replaces `self.straj` with the ensemble
produced by the external filtering/smoothing pipeline. -/
def simulateStep (c : Collab σ ο) (st : PEState σ ο) : PEState σ ο :=
  { st with straj := some (c.sim st) }

/-- The state effect of one `fval`/`fgrad` closure call at query point
`q`: `set_traj_params(self.straj, q)` (`self.params` is untouched). -/
def closureRebind (st : PEState σ ο) (q : List ℚ) : PEState σ ο :=
  { st with straj := st.straj.map (fun s => setTrajParams s q) }

/-- Running the optimizer: its queries rebind the ensemble in sequence
(the only mutation the closures perform), and it returns `res.x`. -/
def runOpt (c : Collab σ ο) (st : PEState σ ο) (p : List ℚ) :
    PEState σ ο × List ℚ :=
  let r := c.opt st p
  (r.2.foldl closureRebind st, r.1)

/-- `numpy.linalg.norm(old - new, numpy.inf)`: the max absolute
componentwise difference (the vectors have equal length in the loop since
`res.x` has the shape of `x0`). -/
def normInf (a b : List ℚ) : ℚ :=
  (List.zipWith (fun x y => |x - y|) a b).foldl max 0

/-- The `while True` loop of `ParamEstimation.maximize`, with explicit
fuel (`none` = fuel exhausted before the tolerance check passed). Each
iteration: copy `old_params`, `self.set_params(params)`, `simulate`,
`scipy.optimize.minimize(fun=fval, x0=params, jac=fgrad)`, take
`params = res.x`, and exit when the infinity-norm of the change is below
`tol`. `tol = ⊤` models `tol = numpy.inf`. Returns the final `params`,
the final driver state and the number of iterations executed. -/
def maximizeLoop (c : Collab σ ο) (tol : WithTop ℚ) :
    ℕ → PEState σ ο → List ℚ → Option (List ℚ × PEState σ ο × ℕ)
  | 0, _, _ => none
  | fuel + 1, st, params =>
    let st1 := setParams st params
    let st2 := simulateStep c st1
    let ro := runOpt c st2 params
    if ((normInf params ro.2 : ℚ) : WithTop ℚ) < tol then
      some (ro.2, ro.1, 1)
    else
      match maximizeLoop c tol fuel ro.1 ro.2 with
      | none => none
      | some (r, stf, n) => some (r, stf, n + 1)

/-- `ParamEstimation.maximize(param0, ..., tol)`. -/
def maximize (c : Collab σ ο) (tol : WithTop ℚ) (fuel : ℕ)
    (st : PEState σ ο) (param0 : List ℚ) : Option (List ℚ × PEState σ ο × ℕ) :=
  maximizeLoop c tol fuel st param0

/-! Spec-side sums, written from the specification's words: the
measurement sum ranges over the time steps whose observation is present,
the transition sum over consecutive instance pairs. -/

/-- Spec reading of the per-trajectory measurement sum: over the paired
(instance, observation) sequence, adding the measurement log-density at
every present observation. -/
def specSumLogpY (m : Model σ ο) (t : STraj σ ο) : ℚ :=
  (t.traj.zip t.y).foldr
    (fun iv acc =>
      match iv.2 with
      | none => acc
      | some ob => m.evalLogpY iv.1.params iv.1.state ob + acc) 0

/-- Spec reading of the per-trajectory transition sum, over the pairs of
a sequence with its own tail. -/
def specSumXnList (m : Model σ ο) (l : List (PInstance σ)) : ℚ :=
  (l.zip l.tail).foldr
    (fun ab acc => m.evalLogpXnext ab.1.params ab.1.state ab.2.params ab.2.state + acc) 0

/-- Spec reading of the per-trajectory transition sum of one trajectory. -/
def specSumLogpXnext (m : Model σ ο) (t : STraj σ ο) : ℚ :=
  specSumXnList m t.traj

/-! Concrete scalar-parameter instantiations, used to evaluate the
embedded code at specific inputs. -/

/-- A concrete model over trivial state/observation types with constant
log-density terms and one-entry gradients. -/
def mW : Model Unit Unit :=
  { evalLogpX0 := fun _ _ => 5
    evalGradLogpX0 := fun _ _ => [7]
    evalLogpY := fun _ _ _ => 3
    evalGradLogpY := fun _ _ _ => [1]
    evalLogpXnext := fun _ _ _ _ => 2
    evalGradLogpXnext := fun _ _ _ _ => [1] }

/-- A concrete instance bound to the one-entry parameter vector `[0]`. -/
def instW : PInstance Unit := ⟨[0], ()⟩

/-- A two-step trajectory whose first observation is present and whose
second observation is missing. -/
def trajW3 : STraj Unit Unit := ⟨[instW, instW], [some (), none]⟩

/-- A driver state holding the one-trajectory ensemble `[trajW3]`. -/
def stW3 : PEState Unit Unit := ⟨some [0], some [trajW3]⟩

/-- A driver state with a one-instance trajectory, for evaluating the
`fgrad` closure. -/
def stW1 : PEState Unit Unit := ⟨some [5], some [⟨[⟨[5], ()⟩], [some ()]⟩]⟩

/-- The state `stW1` after `fgrad` has rebound the ensemble to the query
point `[0]` (`self.params` untouched). -/
def stW1r : PEState Unit Unit := ⟨some [5], some [⟨[⟨[0], ()⟩], [some ()]⟩]⟩

/-- A two-entry parameter vector. -/
def pW2 : List ℚ := [1, 2]

/-- A model whose per-instance measurement gradient has two entries, one
per entry of `pW2`, as the interface prescribes. -/
def mW2 : Model Unit Unit :=
  { evalLogpX0 := fun _ _ => 5
    evalGradLogpX0 := fun _ _ => [7, 7]
    evalLogpY := fun _ _ _ => 3
    evalGradLogpY := fun _ _ _ => [1, 1]
    evalLogpXnext := fun _ _ _ _ => 2
    evalGradLogpXnext := fun _ _ _ _ => [1, 1] }

/-- A driver state bound to the two-entry vector `pW2`, with one
one-instance trajectory whose observation is present. -/
def stW2 : PEState Unit Unit := ⟨some pW2, some [⟨[⟨pW2, ()⟩], [some ()]⟩]⟩

/-- A driver state whose smoothed ensemble is empty (M = 0). -/
def stW6 : PEState Unit Unit := ⟨some [1], some []⟩

/-- A concrete collaborator set: the smoother returns an empty ensemble
and the optimizer returns its starting point without querying the
closures. -/
def cW : Collab Unit Unit := { sim := fun _ => [], opt := fun _ p => (p, []) }

/-- An initial driver state (nothing bound, nothing simulated). -/
def stW0 : PEState Unit Unit := ⟨none, none⟩

/-- The driver state after one `maximize` iteration from `stW0` with
starting point `[3]` under `cW`. -/
def stWfin : PEState Unit Unit := ⟨some [3], some []⟩

/-! Helper lemmas connecting the embedded loops to the spec-side sums. -/

/-- The per-trajectory measurement loop succeeds and computes the
spec-side sum whenever the observation list is at least as long as the
instance list (the no-IndexError condition). -/
theorem sumLogpY_ok (m : Model σ ο) :
    ∀ (insts : List (PInstance σ)) (ys : List (Option ο)),
      insts.length ≤ ys.length →
      sumLogpY m insts ys = Except.ok ((insts.zip ys).foldr
        (fun iv acc =>
          match iv.2 with
          | none => acc
          | some ob => m.evalLogpY iv.1.params iv.1.state ob + acc) 0)
  | [], _, _ => rfl
  | _ :: _, [], h => absurd h (by simp)
  | inst :: insts, oy :: ys, h => by
    have ih := sumLogpY_ok m insts ys (by simpa using h)
    cases oy with
    | none =>
      simp only [sumLogpY, ih, List.zip_cons_cons, List.foldr_cons]
      rfl
    | some ob =>
      simp only [sumLogpY, ih, List.zip_cons_cons, List.foldr_cons]
      rfl

/-- The over-trajectories accumulation of `eval_logp_y`, with a
generalized starting accumulator. -/
theorem accLogpY_gen (m : Model σ ο) :
    ∀ (trajs : List (STraj σ ο)) (a : ℚ),
      (∀ t ∈ trajs, t.traj.length ≤ t.y.length) →
      trajs.foldl
        (fun acc t => do
          let x ← acc
          let v ← sumLogpY m t.traj t.y
          pure (x + v))
        (Except.ok a : Except PyErr ℚ)
        = Except.ok (a + (trajs.map (specSumLogpY m)).sum)
  | [], a, _ => by simp
  | t :: trajs, a, h => by
    have ht : t.traj.length ≤ t.y.length := h t (by simp)
    have hrest : ∀ t' ∈ trajs, t'.traj.length ≤ t'.y.length :=
      fun t' ht' => h t' (by simp [ht'])
    rw [List.foldl_cons]
    have hstep :
        (do
          let x ← (Except.ok a : Except PyErr ℚ)
          let v ← sumLogpY m t.traj t.y
          pure (x + v)) = Except.ok (a + specSumLogpY m t) := by
      rw [show (do
            let x ← (Except.ok a : Except PyErr ℚ)
            let v ← sumLogpY m t.traj t.y
            pure (x + v)) =
          (do
            let v ← sumLogpY m t.traj t.y
            pure (a + v) : Except PyErr ℚ) from rfl,
        sumLogpY_ok m t.traj t.y ht]
      rfl
    rw [hstep, accLogpY_gen m trajs (a + specSumLogpY m t) hrest]
    simp [add_assoc]

/-- The per-trajectory transition loop equals the spec-side pair sum. -/
theorem sumLogpXnext_eq (m : Model σ ο) :
    ∀ l : List (PInstance σ), sumLogpXnext m l = specSumXnList m l
  | [] => rfl
  | [_] => rfl
  | a :: b :: rest => by
    rw [sumLogpXnext, sumLogpXnext_eq m (b :: rest)]
    simp [specSumXnList]

/-- A left fold that adds `g t` at every step is the sum of the mapped
list. -/
theorem foldl_add_map (g : α → ℚ) :
    ∀ (l : List α) (a : ℚ),
      l.foldl (fun x t => x + g t) a = a + (l.map g).sum
  | [], a => by simp
  | t :: l, a => by
    rw [List.foldl_cons, foldl_add_map g l (a + g t)]
    simp [add_assoc]

/-- A trajectory whose observations are all absent has spec-side
measurement sum zero. -/
theorem specSumLogpY_all_none (m : Model σ ο) (t : STraj σ ο)
    (h : ∀ oy ∈ t.y, oy = none) : specSumLogpY m t = 0 := by
  rw [specSumLogpY]
  have : ∀ (insts : List (PInstance σ)) (ys : List (Option ο)),
      (∀ oy ∈ ys, oy = none) →
      (insts.zip ys).foldr
        (fun iv acc =>
          match iv.2 with
          | none => acc
          | some ob => m.evalLogpY iv.1.params iv.1.state ob + acc) 0 = (0 : ℚ) := by
    intro insts
    induction insts with
    | nil => intro ys _; simp
    | cons i is ih =>
      intro ys hys
      cases ys with
      | nil => simp
      | cons oy ys' =>
        have h1 : oy = none := hys oy (by simp)
        subst h1
        simpa using ih ys' (fun o ho => hys o (by simp [ho]))
  exact this t.traj t.y h

/-- Claim C3: for a non-None, non-empty ensemble whose observation
sequences cover the trajectories, `eval_logp_y` returns (1/M) times the
sum over trajectories and over time steps with a present observation of
the per-instance measurement log-density, and a trajectory with every
observation absent contributes zero to that sum. -/
theorem evalLogpY_avg (m : Model σ ο) (st : PEState σ ο)
    (trajs : List (STraj σ ο))
    (hs : st.straj = some trajs) (hM : trajs ≠ [])
    (hlen : ∀ t ∈ trajs, t.traj.length ≤ t.y.length) :
    evalLogpY m st
      = Except.ok ((trajs.map (specSumLogpY m)).sum / (trajs.length : ℚ)) ∧
    ∀ t ∈ trajs, (∀ oy ∈ t.y, oy = none) → specSumLogpY m t = 0 := by
  constructor
  · have hlen0 : trajs.length ≠ 0 := by simpa using hM
    have hacc : accLogpY m trajs
        = Except.ok ((trajs.map (specSumLogpY m)).sum) := by
      rw [accLogpY, accLogpY_gen m trajs 0 hlen, zero_add]
    simp only [evalLogpY, hs, hacc]
    simp [Bind.bind, Except.bind, hlen0, Pure.pure, Except.pure]
  · intro t ht hy
    exact specSumLogpY_all_none m t hy

/-- Claim C4: for a non-None, non-empty ensemble, `eval_logp_xnext`
returns (1/M) times the sum over trajectories and over consecutive
time-step pairs of the transition log-density between the instance at t
and the instance at t+1. -/
theorem evalLogpXnext_avg (m : Model σ ο) (st : PEState σ ο)
    (trajs : List (STraj σ ο))
    (hs : st.straj = some trajs) (hM : trajs ≠ []) :
    evalLogpXnext m st
      = Except.ok ((trajs.map (specSumLogpXnext m)).sum / (trajs.length : ℚ)) := by
  have hlen0 : trajs.length ≠ 0 := by simpa using hM
  have hfold : trajs.foldl (fun a t => a + sumLogpXnext m t.traj) 0
      = (trajs.map (specSumLogpXnext m)).sum := by
    rw [foldl_add_map (fun t => sumLogpXnext m t.traj) trajs 0, zero_add]
    congr 1
    exact List.map_congr_left (fun t _ => by
      rw [sumLogpXnext_eq m t.traj, specSumLogpXnext])
  simp only [evalLogpXnext, hs, hfold]
  simp [hlen0]

/-- Claim C5: for a non-None, non-empty ensemble and a bound parameter
vector, `eval_logp_x0` returns 0 and `eval_grad_logp_x0` returns the
all-zero (single-entry) gradient column, for every model and every
trajectory contents: their accumulation loops are commented out and the
per-instance initial-state terms are never invoked. -/
theorem evalLogpX0_inert (m : Model σ ο) (st : PEState σ ο)
    (trajs : List (STraj σ ο)) (p : List ℚ)
    (hs : st.straj = some trajs) (hM : trajs ≠ [])
    (hp : st.params = some p) :
    evalLogpX0 m st = Except.ok 0 ∧
    evalGradLogpX0 m st = Except.ok [NpF.fin 0] := by
  have hlen0 : trajs.length ≠ 0 := by simpa using hM
  constructor
  · simp only [evalLogpX0, hs]
    simp [hlen0]
  · simp only [evalGradLogpX0, hp, hs]
    simp [npDivNat, hlen0]

/-- Claim C9: whenever the three averaged terms all evaluate (as they do
on a non-empty ensemble with covering observation sequences),
`eval_prob` returns exactly their sum
`eval_logp_x0() + eval_logp_xnext() + eval_logp_y()`; its definition
never consults the optimizer collaborator. -/
theorem evalProb_sum (m : Model σ ο) (st : PEState σ ο) (v0 vn vy : ℚ)
    (h0 : evalLogpX0 m st = Except.ok v0)
    (hn : evalLogpXnext m st = Except.ok vn)
    (hy : evalLogpY m st = Except.ok vy) :
    evalProb m st = Except.ok (v0 + vn + vy) := by
  rw [evalProb]
  simp [h0, hn, hy, Bind.bind, Except.bind, Pure.pure, Except.pure]

/-! Frame lemmas for the outer loop: neither the ensemble regeneration
nor the optimizer closures touch `self.params`. -/

/-- A sequence of closure rebinds leaves `self.params` unchanged. -/
theorem foldl_closureRebind_params :
    ∀ (qs : List (List ℚ)) (st : PEState σ ο),
      (qs.foldl closureRebind st).params = st.params
  | [], _ => rfl
  | _ :: qs, st => by
    rw [List.foldl_cons, foldl_closureRebind_params qs]
    rfl

/-- Running the optimizer leaves `self.params` unchanged. -/
theorem runOpt_params (c : Collab σ ο) (st : PEState σ ο) (p : List ℚ) :
    (runOpt c st p).1.params = st.params :=
  foldl_closureRebind_params _ _

/-- After one full iteration body started from `set_params q`, the
driver's stored parameter vector is still `q`. -/
theorem iterBody_params (c : Collab σ ο) (st0 : PEState σ ο) (q : List ℚ) :
    (runOpt c (simulateStep c (setParams st0 q)) q).1.params = some q := by
  rw [runOpt_params]
  rfl

/-- Claim C7: for every collaborator set, driver state and initial
parameter vector, `maximize` with tolerance `+∞` and any positive fuel
runs exactly one simulate/optimize iteration: the convergence check
passes immediately and the optimizer's candidate from that single
iteration is returned. -/
theorem maximize_tol_top (c : Collab σ ο) (st : PEState σ ο)
    (p : List ℚ) (fuel : ℕ) :
    maximize c ⊤ (fuel + 1) st p =
      some ((runOpt c (simulateStep c (setParams st p)) p).2,
            (runOpt c (simulateStep c (setParams st p)) p).1, 1) := by
  rw [maximize, maximizeLoop]
  simp [WithTop.coe_lt_top]

/-- Claim C10: when `maximize` returns `r`, the driver's stored
`self.params` is the value passed to `set_params` at the start of the
final outer iteration (the iteration whose body produced the final state
and whose optimizer candidate is `r`); whenever the optimizer's result
of that iteration differs from its starting value, the returned vector
and the stored vector disagree. -/
theorem maximize_params_stale (c : Collab σ ο) (tol : WithTop ℚ) :
    ∀ (fuel : ℕ) (st : PEState σ ο) (p r : List ℚ)
      (stf : PEState σ ο) (n : ℕ),
      maximize c tol fuel st p = some (r, stf, n) →
      ∃ st0 q,
        stf = (runOpt c (simulateStep c (setParams st0 q)) q).1 ∧
        r = (runOpt c (simulateStep c (setParams st0 q)) q).2 ∧
        stf.params = some q ∧
        (r ≠ q → stf.params ≠ some r)
  | 0, st, p, r, stf, n, h => absurd h (by rw [maximize, maximizeLoop]; simp)
  | fuel + 1, st, p, r, stf, n, h => by
    rw [maximize, maximizeLoop] at h
    split at h
    · obtain ⟨h1, h2, h3⟩ : _ ∧ _ ∧ _ := by
        simpa using h
      refine ⟨st, p, h2.symm, h1.symm, ?_, ?_⟩
      · rw [← h2, iterBody_params]
      · intro hne
        rw [← h2, iterBody_params]
        simpa using fun hc => hne hc.symm
    · split at h
      · exact absurd h (by simp)
      · rename_i r' stf' n' heq
        obtain ⟨h1, h2, h3⟩ : r' = r ∧ stf' = stf ∧ n' + 1 = n := by
          simpa using h
        rw [← h1, ← h2]
        exact maximize_params_stale c tol fuel _ _ r' stf' n'
          (by rw [maximize]; exact heq)

/-- Claim C8: `set_params(p)` on a driver whose smoothed ensemble is not
None stores `p` and rebinds `p` to every model instance at every time
step of every trajectory: afterwards every instance in the ensemble
holds exactly the vector `p`. -/
theorem setParams_rebinds (st : PEState σ ο) (p : List ℚ)
    (trajs : List (STraj σ ο)) (hs : st.straj = some trajs) :
    (setParams st p).params = some p ∧
    (setParams st p).straj = some (setTrajParams trajs p) ∧
    ∀ t ∈ setTrajParams trajs p, ∀ inst ∈ t.traj, inst.params = p := by
  refine ⟨rfl, by simp [setParams, hs], ?_⟩
  intro t ht inst hinst
  simp only [setTrajParams, List.mem_map] at ht
  obtain ⟨t0, _, rfl⟩ := ht
  simp only [List.mem_map] at hinst
  obtain ⟨i0, _, rfl⟩ := hinst
  rfl

/-- Claim C1 (refuted as stated; bug in the source): at a concrete
ensemble, `fgrad` does rebind the query point to every instance, but it
returns the UN-negated elementwise sum of the three averaged gradient
terms, flattened — the source negates `fval` yet omits the `-1.0 *` in
`fgrad`, so the value is not the negation the optimizer contract (and
the claim) requires. -/
theorem fgrad_unnegated :
    fgrad mW stW1 [0] = Except.ok (stW1r, [NpF.fin 1]) ∧
    [NpF.fin 1] ≠ [NpF.fin (-1)] := by
  constructor
  · norm_num [fgrad, mW, stW1, stW1r, setTrajParams, setInstParams,
      evalGradLogpY, evalGradLogpX0, evalGradLogpXnext, sumGradLogpY,
      sumGradLogpXnext, npIAdd, npDivNat, npAdd, NpF.add,
      Bind.bind, Except.bind, Pure.pure, Except.pure]
  · norm_num

/-- Claim C2 (refuted; bug in the source): the gradient accumulators are
allocated as `numpy.zeros((len(self.params.shape), 1))`, a single entry
for any 1-D parameter vector, instead of one entry per parameter. With
the two-entry vector `pW2`: `eval_grad_logp_x0` returns a one-entry
vector, and `eval_grad_logp_y` raises a broadcast ValueError the moment
a two-entry per-instance gradient is accumulated into the one-entry
accumulator. -/
theorem gradDim_bug :
    pW2.length = 2 ∧ stW2.params = some pW2 ∧
    evalGradLogpX0 mW2 stW2 = Except.ok [NpF.fin 0] ∧
    ([NpF.fin 0] : List NpF).length ≠ 2 ∧
    evalGradLogpY mW2 stW2 = Except.error PyErr.valueError := by
  refine ⟨rfl, rfl, ?_, by simp, ?_⟩
  · norm_num [evalGradLogpX0, stW2, npDivNat]
  · norm_num [evalGradLogpY, mW2, stW2, sumGradLogpY, npIAdd, npDivNat,
      Bind.bind, Except.bind, Pure.pure, Except.pure]

/-- Claim C6 (refuted as stated; bug in the source): on the empty
ensemble no check precedes the averaging. The scalar terms raise
ZeroDivisionError only at the division itself, and the gradient terms
signal no error at all: numpy division of the zero accumulator by
M = 0 silently yields a NaN entry. -/
theorem emptyEnsemble_nan :
    evalLogpY mW stW6 = Except.error PyErr.zeroDivision ∧
    evalLogpXnext mW stW6 = Except.error PyErr.zeroDivision ∧
    evalLogpX0 mW stW6 = Except.error PyErr.zeroDivision ∧
    evalGradLogpY mW stW6 = Except.ok [NpF.nan] ∧
    evalGradLogpXnext mW stW6 = Except.ok [NpF.nan] ∧
    evalGradLogpX0 mW stW6 = Except.ok [NpF.nan] := by
  refine ⟨?_, ?_, ?_, ?_, ?_, ?_⟩ <;>
    norm_num [evalLogpY, evalLogpXnext, evalLogpX0, evalGradLogpY,
      evalGradLogpXnext, evalGradLogpX0, stW6, accLogpY, npDivNat,
      Bind.bind, Except.bind, Pure.pure, Except.pure]

/-- Witness for C3: the concrete one-trajectory ensemble `stW3`, whose
first observation is present and second is missing. -/
theorem evalLogpY_avg_witness :
    stW3.straj = some [trajW3] ∧ ([trajW3] : List (STraj Unit Unit)) ≠ [] ∧
    (∀ t ∈ [trajW3], t.traj.length ≤ t.y.length) ∧
    (evalLogpY mW stW3
        = Except.ok ((([trajW3].map (specSumLogpY mW)).sum) / (([trajW3].length : ℕ) : ℚ)) ∧
      ∀ t ∈ [trajW3], (∀ oy ∈ t.y, oy = none) → specSumLogpY mW t = 0) :=
  ⟨rfl, by simp, by simp [trajW3],
    evalLogpY_avg mW stW3 [trajW3] rfl (by simp) (by simp [trajW3])⟩

/-- Witness for C4: the same concrete ensemble, one consecutive pair. -/
theorem evalLogpXnext_avg_witness :
    stW3.straj = some [trajW3] ∧ ([trajW3] : List (STraj Unit Unit)) ≠ [] ∧
    evalLogpXnext mW stW3
      = Except.ok ((([trajW3].map (specSumLogpXnext mW)).sum) / (([trajW3].length : ℕ) : ℚ)) :=
  ⟨rfl, by simp, evalLogpXnext_avg mW stW3 [trajW3] rfl (by simp)⟩

/-- Witness for C5: the concrete ensemble `stW3` with bound vector `[0]`. -/
theorem evalLogpX0_inert_witness :
    stW3.straj = some [trajW3] ∧ ([trajW3] : List (STraj Unit Unit)) ≠ [] ∧
    stW3.params = some [0] ∧
    (evalLogpX0 mW stW3 = Except.ok 0 ∧
     evalGradLogpX0 mW stW3 = Except.ok [NpF.fin 0]) :=
  ⟨rfl, by simp, rfl,
    evalLogpX0_inert mW stW3 [trajW3] [0] rfl (by simp) rfl⟩

/-- Witness for C8: rebinding `[9]` onto the ensemble of `stW3`. -/
theorem setParams_rebinds_witness :
    stW3.straj = some [trajW3] ∧
    ((setParams stW3 [9]).params = some [9] ∧
     (setParams stW3 [9]).straj = some (setTrajParams [trajW3] [9]) ∧
     ∀ t ∈ setTrajParams [trajW3] [9], ∀ inst ∈ t.traj, inst.params = [9]) :=
  ⟨rfl, setParams_rebinds stW3 [9] [trajW3] rfl⟩

/-- Witness for C9: on `stW3` the three terms evaluate to 0, 2 and 3 and
`eval_prob` returns their sum. -/
theorem evalProb_sum_witness :
    evalLogpX0 mW stW3 = Except.ok 0 ∧
    evalLogpXnext mW stW3 = Except.ok 2 ∧
    evalLogpY mW stW3 = Except.ok 3 ∧
    evalProb mW stW3 = Except.ok (0 + 2 + 3) :=
  have h0 : evalLogpX0 mW stW3 = Except.ok 0 := by
    norm_num [evalLogpX0, stW3]
  have hn : evalLogpXnext mW stW3 = Except.ok 2 := by
    norm_num [evalLogpXnext, stW3, trajW3, instW, mW, sumLogpXnext]
  have hy : evalLogpY mW stW3 = Except.ok 3 := by
    norm_num [evalLogpY, stW3, trajW3, instW, mW, accLogpY, sumLogpY,
      Bind.bind, Except.bind, Pure.pure, Except.pure]
  ⟨h0, hn, hy, evalProb_sum mW stW3 0 2 3 h0 hn hy⟩

/-- Witness for C10: one `maximize` iteration from the fresh state under
the concrete collaborators returns `[3]` while the final stored
parameter vector is the iteration-start value `[3]`. -/
theorem maximize_params_stale_witness :
    maximize cW ⊤ 1 stW0 [3] = some ([3], stWfin, 1) ∧
    ∃ st0 q,
      stWfin = (runOpt cW (simulateStep cW (setParams st0 q)) q).1 ∧
      ([3] : List ℚ) = (runOpt cW (simulateStep cW (setParams st0 q)) q).2 ∧
      stWfin.params = some q ∧
      (([3] : List ℚ) ≠ q → stWfin.params ≠ some [3]) :=
  have hrun : maximize cW ⊤ 1 stW0 [3] = some ([3], stWfin, 1) := by
    norm_num [maximize, maximizeLoop, cW, stW0, stWfin, setParams,
      simulateStep, runOpt, normInf, closureRebind, WithTop.coe_lt_top]
  ⟨hrun, maximize_params_stale cW ⊤ 1 stW0 [3] [3] stWfin 1 hrun⟩

end ParamEst
